import Mathlib

/-!
Verification development for the eva calculator's core evaluation pipeline.

The repository ships `src/main.rs`, which contains the entry point
`eval_math_expression` together with the project's test suite.  The four
pipeline stages it calls (`format::autobalance_parens`, `lex::lexer`,
`parse::to_postfix`, the postfix evaluator) and the error type
`error::CalcError` live in modules that are not part of the sources at hand;
they are modelled here from the specification, as indicated by the doc
comments starting with "Modelled from the spec:".

Numbers: the program computes with IEEE doubles.  This embedding replaces
them by exact rational arithmetic, represented by unnormalised fractions
`Q` (numerator and positive denominator, never reduced) so that every
pipeline run is kernel-computable.  The named constants `e` and `pi` are
given the exact rational values of the corresponding `f64` constants.
Division by zero yields `0` rather than an IEEE infinity, `x ^ y` for
fractional `y` is the exact rational root when one exists (and `0`
otherwise, where IEEE would produce an irrational approximation), and the
transcendental library functions (`sin`, `cos`, ..., `ln`, `exp`, `log`)
are modelled by the constantly-zero function: their (irrational) values lie
outside a rational embedding and none of the verified claims depends on
them.  The final "format to `fix` decimals and re-parse" step is modelled
as exact decimal rounding (half away from the floor side), which agrees
with the formatter on every value appearing in the claims (none is a
decimal tie).
-/

namespace EvaSpec

/-- Decidable equality for `Except`, needed to run concrete pipeline
evaluations inside `decide`. -/
instance {ε α : Type} [DecidableEq ε] [DecidableEq α] : DecidableEq (Except ε α) := fun x y =>
  match x, y with
  | .error a, .error b =>
    if h : a = b then .isTrue (by rw [h]) else .isFalse (fun hh => h (Except.error.inj hh))
  | .ok a, .ok b =>
    if h : a = b then .isTrue (by rw [h]) else .isFalse (fun hh => h (Except.ok.inj hh))
  | .error _, .ok _ => .isFalse (fun hh => Except.noConfusion hh)
  | .ok _, .error _ => .isFalse (fun hh => Except.noConfusion hh)

/-- Modelled from the spec: the shared error taxonomy of `error::CalcError`
(section 7): `Help` (user asked for usage text), `Syntax` (malformed
structure), `Parser` (invalid operator/operand arrangement), and the
`Undefined`/`Lexer` kind (unknown name, malformed literal, missing
previous answer). -/
inductive CalcError where
  | Help : CalcError
  | Syntax : String → CalcError
  | Parser : String → CalcError
  | Lexer : String → CalcError
  deriving DecidableEq, Repr

/-- Unnormalised rational numbers: the shallow embedding of the program's
`f64` values.  The denominator is kept positive by construction and the
fraction is never reduced, so that all arithmetic is kernel-computable. -/
structure Q where
  num : Int
  den : Int
  deriving DecidableEq, Repr

def Q.ofInt (n : Int) : Q := ⟨n, 1⟩

def Q.toRat (q : Q) : ℚ := (q.num : ℚ) / (q.den : ℚ)

def Q.add (a b : Q) : Q := ⟨a.num * b.den + b.num * a.den, a.den * b.den⟩

def Q.sub (a b : Q) : Q := ⟨a.num * b.den - b.num * a.den, a.den * b.den⟩

def Q.mul (a b : Q) : Q := ⟨a.num * b.num, a.den * b.den⟩

/-- Division; `a / 0` is modelled as `0` (the program produces an IEEE
infinity there; no claim exercises division by zero). -/
def Q.div (a b : Q) : Q :=
  if b.num = 0 then ⟨0, 1⟩
  else if b.num < 0 then ⟨-(a.num * b.den), -(a.den * b.num)⟩
  else ⟨a.num * b.den, a.den * b.num⟩

def Q.neg (a : Q) : Q := ⟨-a.num, a.den⟩

/-- Integer power of an unnormalised rational. -/
def Q.zpowInt (a : Q) : Int → Q
  | .ofNat k => ⟨a.num ^ k, a.den ^ k⟩
  | .negSucc k => Q.div ⟨1, 1⟩ ⟨a.num ^ (k + 1), a.den ^ (k + 1)⟩

/-- Exact integer `k`-th root, when it exists. -/
def natRoot (n k : Nat) : Option Nat :=
  (List.range (n + 2)).find? (fun m => m ^ k == n)

/-- Modelled from the spec: the evaluator computes `x ^ y` with the IEEE
`powf`.  In the rational embedding an integer exponent gives the exact
power; a fractional exponent gives the exact rational root when one
exists and `0` otherwise (IEEE would return an irrational value that no
claim depends on). -/
def Q.qpow (a b : Q) : Q :=
  if b.den = 0 then ⟨1, 1⟩
  else if b.num.emod b.den = 0 then Q.zpowInt a (b.num.ediv b.den)
  else
    let y := Q.zpowInt a b.num
    if y.num < 0 then ⟨0, 1⟩
    else
      match natRoot y.num.toNat b.den.toNat, natRoot y.den.toNat b.den.toNat with
      | some p, some q => if q = 0 then ⟨0, 1⟩ else ⟨p, q⟩
      | _, _ => ⟨0, 1⟩

def Q.blt (a b : Q) : Bool := a.num * b.den < b.num * a.den

def Q.qfloor (a : Q) : Int := Int.fdiv a.num a.den

def Q.qceil (a : Q) : Int := -Int.fdiv (-a.num) a.den

/-- Rust's `f64::round`: round half away from zero. -/
def Q.qround (a : Q) : Int :=
  if a.num < 0 then -Int.fdiv (2 * (-a.num) + a.den) (2 * a.den)
  else Int.fdiv (2 * a.num + a.den) (2 * a.den)

def Q.qabs (a : Q) : Q := ⟨a.num.natAbs, a.den⟩

def Q.qmin (a b : Q) : Q := if Q.blt b a then b else a

def Q.qmax (a b : Q) : Q := if Q.blt a b then b else a

/-- Modelled from the spec: the exact rational value of the `f64` constant
`std::f64::consts::E` substituted by the lexer for the name `e`. -/
def constE : Q := ⟨6121026514868073, 2251799813685248⟩

/-- Modelled from the spec: the exact rational value of the `f64` constant
`std::f64::consts::PI` substituted by the lexer for the name `pi`. -/
def constPi : Q := ⟨884279719003555, 281474976710656⟩

/-! String preprocessing performed by `eval_math_expression` in `main.rs`:
`input.trim().replace(" ", "")`. -/

/-- `str::replace(" ", "")`: delete every space character. -/
def removeSp (l : List Char) : List Char := l.filter (fun c => c ≠ ' ')

/-- Drop trailing whitespace. -/
def dropTrail (l : List Char) : List Char :=
  (l.reverse.dropWhile Char.isWhitespace).reverse

/-- `str::trim`: drop leading and trailing whitespace. -/
def trimWS (l : List Char) : List Char :=
  dropTrail (l.dropWhile Char.isWhitespace)

/-- The string preprocessing done by `eval_math_expression` before any
pipeline stage: trim, then delete every space. -/
def strip (s : String) : List Char := removeSp (trimWS s.data)

/-! The preprocessor (`format::autobalance_parens`). -/

/-- The preprocessor's left-to-right scan: `scan l d` follows the open-paren
depth counter starting at `d`; `none` means the counter went negative. -/
def scan : List Char → Nat → Option Nat
  | [], d => some d
  | c :: r, d =>
    if c = '(' then scan r (d + 1)
    else if c = ')' then
      match d with
      | 0 => none
      | e + 1 => scan r e
    else scan r d

/-- Modelled from the spec: the recursive worker of
`format::autobalance_parens` (spec section 4.1): scan left to right keeping
an open-paren depth counter; a `)` at depth 0 fails immediately with
`Syntax "Mismatched parentheses!"`; at the end of the input, append exactly
`depth` closing parentheses. -/
def balGo : List Char → Nat → Except CalcError (List Char)
  | [], d => .ok (List.replicate d ')')
  | c :: r, d =>
    if c = '(' then (balGo r (d + 1)).map (c :: ·)
    else if c = ')' then
      match d with
      | 0 => .error (.Syntax "Mismatched parentheses!")
      | e + 1 => (balGo r e).map (c :: ·)
    else (balGo r d).map (c :: ·)

/-- Modelled from the spec: `format::autobalance_parens` (spec section 4.1),
the paren auto-balancing preprocessor. -/
def autobalanceParens (l : List Char) : Except CalcError (List Char) :=
  balGo l 0

/-! Tokens (spec section 3). -/

/-- The binary operators `+ - * / ^` plus the unary-minus operator the
parser spec (section 4.3) assigns highest precedence. -/
inductive Op where
  | add | sub | mul | div | pow | neg
  deriving DecidableEq, Repr

/-- Operator precedence: `^` above `*`,`/` above `+`,`-`; unary minus
highest (spec sections 4.2 and 4.3). -/
def precOf : Op → Nat
  | .add => 2
  | .sub => 2
  | .mul => 3
  | .div => 3
  | .pow => 4
  | .neg => 5

/-- `^` and unary minus are right-associative; the rest left (spec). -/
def isRightAssoc : Op → Bool
  | .pow => true
  | .neg => true
  | _ => false

/-- Modelled from the spec: the token type produced by `lex::lexer` (spec
section 3).  Constants and the previous-answer placeholder are substituted
as `num` tokens by the lexer (spec section 4.2). -/
inductive Token where
  | num (q : Q)
  | op (o : Op)
  | fn (name : String)
  | lparen
  | rparen
  | comma
  deriving DecidableEq, Repr

/-- Modelled from the spec: the fixed function table with declared arities
(spec section 4.2). -/
def fnArity (name : String) : Option Nat :=
  if name ∈ ["sin", "cos", "tan", "asin", "acos", "atan", "deg", "rad",
             "sqrt", "cbrt", "ln", "log10", "exp", "exp2", "abs", "ceil",
             "floor", "round"] then some 1
  else if name ∈ ["nroot", "log", "min", "max"] then some 2
  else none

/-- Modelled from the spec: semantics of the arity-1 functions.  The exact
ones (`sqrt`, `cbrt`, `exp2`, `abs`, `ceil`, `floor`, `round`, `deg`,
`rad`) are given their rational meaning; the transcendental ones (`sin`,
`cos`, `tan`, `asin`, `acos`, `atan`, `ln`, `log10`, `exp`) are modelled by
the constantly-zero function, see the header comment. -/
def applyFn1 (name : String) (x : Q) : Q :=
  if name = "sqrt" then Q.qpow x (Q.div ⟨1, 1⟩ ⟨2, 1⟩)
  else if name = "cbrt" then Q.qpow x (Q.div ⟨1, 1⟩ ⟨3, 1⟩)
  else if name = "exp2" then Q.qpow ⟨2, 1⟩ x
  else if name = "abs" then Q.qabs x
  else if name = "ceil" then Q.ofInt (Q.qceil x)
  else if name = "floor" then Q.ofInt (Q.qfloor x)
  else if name = "round" then Q.ofInt (Q.qround x)
  else if name = "deg" then Q.div (Q.mul x ⟨180, 1⟩) constPi
  else if name = "rad" then Q.div (Q.mul x constPi) ⟨180, 1⟩
  else ⟨0, 1⟩

/-- Modelled from the spec: semantics of the arity-2 functions.
`nroot(x, n) = x ^ (1/n)`; `log` (arbitrary base) is transcendental and
modelled by zero, see the header comment. -/
def applyFn2 (name : String) (x y : Q) : Q :=
  if name = "nroot" then Q.qpow x (Q.div ⟨1, 1⟩ y)
  else if name = "min" then Q.qmin x y
  else if name = "max" then Q.qmax x y
  else ⟨0, 1⟩

/-- Binary operator semantics. -/
def applyOp : Op → Q → Q → Q
  | .add, a, b => Q.add a b
  | .sub, a, b => Q.sub a b
  | .mul, a, b => Q.mul a b
  | .div, a, b => Q.div a b
  | .pow, a, b => Q.qpow a b
  | .neg, a, _ => Q.neg a

/-! The lexer (`lex::lexer`), modelled from spec section 4.2. -/

/-- Characters that can start or continue a numeric literal. -/
def numChar (c : Char) : Bool := c.isDigit || c = '.'

def digitsToNat (l : List Char) : Nat :=
  l.foldl (fun a c => 10 * a + (c.toNat - 48)) 0

/-- Modelled from the spec: parsing of a numeric literal (integer or
decimal); a malformed literal (no digits, or more than one dot) is a
`Lexer` error. -/
def parseNumber (l : List Char) : Except CalcError Q :=
  if l.all (fun c => c = '.') then .error (.Lexer "Invalid number!")
  else if 1 < (l.filter (fun c => c = '.')).length then .error (.Lexer "Invalid number!")
  else
    let intPart := l.takeWhile (fun c => c ≠ '.')
    let fracPart := (l.dropWhile (fun c => c ≠ '.')).drop 1
    .ok ⟨digitsToNat intPart * 10 ^ fracPart.length + digitsToNat fracPart,
         (10 : Int) ^ fracPart.length⟩

/-- Implicit multiplication (spec section 4.2): a `*` is inserted when a
number, constant or closing paren is directly followed by a number,
constant, function or opening paren.  `mulBefore last` says whether the
last emitted token is in the trigger set. -/
def mulBefore : Option Token → Bool
  | some (.num _) => true
  | some .rparen => true
  | _ => false

/-- Unary-minus detection (spec section 4.3): `-` is unary at the start of
the expression, after `(`, after another operator, or after a comma. -/
def minusIsUnary : Option Token → Bool
  | none => true
  | some (.op _) => true
  | some .lparen => true
  | some .comma => true
  | _ => false

/-- Modelled from the spec: the character-consuming worker of `lex::lexer`
(spec section 4.2).  `fuel` is an upper bound on the number of characters
still to be consumed (each step consumes at least one character, and the
lexer passes the input length, so the fuel never runs out).  `last` is the
most recently emitted token, used for implicit multiplication and
unary-minus detection; `acc` holds the output tokens in reverse. -/
def lexGo (prev : Option Q) : Nat → List Char → Option Token → List Token →
    Except CalcError (List Token)
  | _, [], _, acc => .ok acc.reverse
  | 0, _ :: _, _, _ => .error (.Lexer "Invalid expression!")
  | fuel + 1, c :: rest, last, acc =>
    if numChar c then
      let run := c :: rest.takeWhile numChar
      match parseNumber run with
      | .error e => .error e
      | .ok q =>
        let tok := Token.num q
        lexGo prev fuel (rest.dropWhile numChar) (some tok)
          (if mulBefore last then tok :: .op .mul :: acc else tok :: acc)
    else if c.isAlpha then
      let name := String.mk (c :: rest.takeWhile Char.isAlpha)
      let rest1 := rest.dropWhile Char.isAlpha
      if name = "e" ∨ name = "pi" then
        let v := if name = "e" then constE else constPi
        let tok := Token.num v
        lexGo prev fuel rest1 (some tok)
          (if mulBefore last then tok :: .op .mul :: acc else tok :: acc)
      else
        let digs := rest1.takeWhile Char.isDigit
        let nameD := String.mk (name.data ++ digs)
        if digs ≠ [] ∧ (fnArity nameD).isSome then
          let tok := Token.fn nameD
          lexGo prev fuel (rest1.dropWhile Char.isDigit) (some tok)
            (if mulBefore last then tok :: .op .mul :: acc else tok :: acc)
        else if (fnArity name).isSome then
          let tok := Token.fn name
          lexGo prev fuel rest1 (some tok)
            (if mulBefore last then tok :: .op .mul :: acc else tok :: acc)
        else .error (.Lexer "Unknown function or constant!")
    else if c = '_' then
      match prev with
      | some v =>
        let tok := Token.num v
        lexGo prev fuel rest (some tok)
          (if mulBefore last then tok :: .op .mul :: acc else tok :: acc)
      | none => .error (.Lexer "no previous answer available")
    else if c = '+' then
      lexGo prev fuel rest (some (.op .add)) (.op .add :: acc)
    else if c = '-' then
      let o : Op := if minusIsUnary last then .neg else .sub
      lexGo prev fuel rest (some (.op o)) (.op o :: acc)
    else if c = '*' then
      match rest with
      | '*' :: rest2 => lexGo prev fuel rest2 (some (.op .pow)) (.op .pow :: acc)
      | _ => lexGo prev fuel rest (some (.op .mul)) (.op .mul :: acc)
    else if c = '/' then
      lexGo prev fuel rest (some (.op .div)) (.op .div :: acc)
    else if c = '^' then
      lexGo prev fuel rest (some (.op .pow)) (.op .pow :: acc)
    else if c = '(' then
      lexGo prev fuel rest (some .lparen)
        (if mulBefore last then .lparen :: .op .mul :: acc else .lparen :: acc)
    else if c = ')' then
      lexGo prev fuel rest (some .rparen) (.rparen :: acc)
    else if c = ',' then
      lexGo prev fuel rest (some .comma) (.comma :: acc)
    else .error (.Syntax "Unrecognized character!")

/-- Modelled from the spec: `lex::lexer` (spec section 4.2), turning the
balanced character list into a token sequence.  `prev` is the
previous-answer value substituted for `_`. -/
def lexer (l : List Char) (prev : Option Q) : Except CalcError (List Token) :=
  lexGo prev l.length l none []

/-! The parser (`parse::to_postfix`), modelled from spec section 4.3. -/

/-- Operator-stack entries of the shunting-yard pass: operators, functions,
and open parens.  Each open paren carries the number of commas seen in its
scope, used for the argument-count check of spec section 4.3. -/
inductive SEntry where
  | sop (o : Op)
  | sfn (f : String)
  | sparen (argc : Nat)
  deriving DecidableEq, Repr

/-- Pop operators to the output while the top has higher precedence, or
equal precedence with a left-associative incoming operator (spec section
4.3).  Returns the popped tokens (in pop order) and the rest of the
stack. -/
def popHigher (o : Op) : List SEntry → List Token × List SEntry
  | [] => ([], [])
  | .sop top :: ts =>
    if precOf o < precOf top ∨ (precOf top = precOf o ∧ ¬isRightAssoc o) then
      let (out, st) := popHigher o ts
      (.op top :: out, st)
    else ([], .sop top :: ts)
  | st => ([], st)

/-- Pop stack entries to the output until an open paren is on top; `none`
when there is no open paren in the stack.  Returns the popped tokens, the
comma count carried by the paren, and the stack below the paren. -/
def popToParen : List SEntry → Option (List Token × Nat × List SEntry)
  | [] => none
  | .sparen n :: ts => some ([], n, ts)
  | .sop o :: ts =>
    (popToParen ts).map (fun r => (.op o :: r.1, r.2.1, r.2.2))
  | .sfn f :: ts =>
    (popToParen ts).map (fun r => (.fn f :: r.1, r.2.1, r.2.2))

/-- Whether a comma is acceptable given the operator stack below its
enclosing open paren: the paren must be a function call's (spec sections 3
and 4.3).  An open paren at the very bottom of the stack is not rejected
here; the repository's tests (`eval_unexpected_comma`) pin that such a
comma surfaces later as the evaluator's stack-arity error. -/
def commaOk : List SEntry → Bool
  | [] => true
  | .sfn _ :: _ => true
  | _ => false

/-- Pop the whole operator stack at the end of input; `none` when an open
paren is left (mismatched parentheses, spec section 4.3). -/
def drainStack : List SEntry → Option (List Token)
  | [] => some []
  | .sparen _ :: _ => none
  | .sop o :: ts => (drainStack ts).map (.op o :: ·)
  | .sfn f :: ts => (drainStack ts).map (.fn f :: ·)

/-- The `Parser` message for a function applied to fewer arguments than its
declared arity (pinned by the repository test `eval_mismatched_args`). -/
def tooFewMsg (supplied : Nat) (f : String) (requires_ : Nat) : String :=
  "Too few arguments (" ++ toString supplied ++ ") for function " ++ f ++
    " (requires " ++ toString requires_ ++ ")!"

/-- Modelled from the spec: the token-consuming worker of
`parse::to_postfix` (spec section 4.3): the shunting-yard pass.  `st` is
the operator stack, `out` the output queue in reverse. -/
def rpnGo : List Token → List SEntry → List Token → Except CalcError (List Token)
  | [], st, out =>
    match drainStack st with
    | none => .error (.Syntax "Mismatched parentheses!")
    | some popped => .ok (out.reverse ++ popped)
  | .num q :: rest, st, out => rpnGo rest st (.num q :: out)
  | .fn f :: rest, st, out => rpnGo rest (.sfn f :: st) out
  | .lparen :: rest, st, out => rpnGo rest (.sparen 0 :: st) out
  | .op o :: rest, st, out =>
    let p := popHigher o st
    rpnGo rest (.sop o :: p.2) (p.1.reverse ++ out)
  | .comma :: rest, st, out =>
    match popToParen st with
    | none => .error (.Syntax "comma without matching function call")
    | some (popped, n, below) =>
      if commaOk below then
        rpnGo rest (.sparen (n + 1) :: below) (popped.reverse ++ out)
      else .error (.Syntax "comma without matching function call")
  | .rparen :: rest, st, out =>
    match popToParen st with
    | none => .error (.Syntax "Mismatched parentheses!")
    | some (popped, n, below) =>
      match below with
      | .sfn f :: below2 =>
        match fnArity f with
        | some ar =>
          if n + 1 < ar then .error (.Parser (tooFewMsg (n + 1) f ar))
          else rpnGo rest below2 (.fn f :: (popped.reverse ++ out))
        | none => rpnGo rest below2 (.fn f :: (popped.reverse ++ out))
      | _ => rpnGo rest below (popped.reverse ++ out)

/-- Modelled from the spec: `parse::to_postfix` (spec section 4.3),
converting the infix token sequence to reverse-Polish order. -/
def toRPN (ts : List Token) : Except CalcError (List Token) :=
  rpnGo ts [] []

/-! The evaluator, modelled from spec section 4.4. -/

/-- The evaluator's stack-arity `Parser` error (spec section 4.4, message
pinned by the repository tests). -/
def stackErr : CalcError := .Parser "Too many operators, Too little operands"

/-- Modelled from the spec: one step of the postfix evaluator (spec section
4.4): numbers are pushed; an operator or function pops its declared arity
of operands (the earlier operand is popped second) and pushes the result;
popping from a too-small stack is the stack-arity `Parser` error. -/
def evalStep (stk : List Q) : Token → Except CalcError (List Q)
  | .num q => .ok (q :: stk)
  | .op .neg =>
    match stk with
    | x :: r => .ok (Q.neg x :: r)
    | [] => .error stackErr
  | .op o =>
    match stk with
    | b :: a :: r => .ok (applyOp o a b :: r)
    | _ => .error stackErr
  | .fn f =>
    match fnArity f with
    | some 1 =>
      match stk with
      | x :: r => .ok (applyFn1 f x :: r)
      | [] => .error stackErr
    | some 2 =>
      match stk with
      | y :: x :: r => .ok (applyFn2 f x y :: r)
      | _ => .error stackErr
    | _ => .error stackErr
  | _ => .error stackErr

/-- Worker of the postfix evaluator: fold the steps over the sequence. -/
def evalRPNGo : List Token → List Q → Except CalcError (List Q)
  | [], stk => .ok stk
  | t :: rest, stk =>
    match evalStep stk t with
    | .error e => .error e
    | .ok stk2 => evalRPNGo rest stk2

/-- Modelled from the spec: the postfix evaluator (spec section 4.4); after
the scan exactly one value must remain on the stack, any other count is
the stack-arity `Parser` error. -/
def evalRPN (ts : List Token) : Except CalcError Q :=
  match evalRPNGo ts [] with
  | .error e => .error e
  | .ok [x] => .ok x
  | .ok _ => .error stackErr

/-! The entry point `eval_math_expression` (from `src/main.rs`). -/

/-- The `format!("{:.*}", fix, evaled).parse::<f64>()` rounding step of
`eval_math_expression`, modelled as exact decimal rounding to `fix`
places: the result is the nearest multiple of `10 ^ -fix` (ties upward;
no claim value is a tie). -/
def fixRound (fix : Nat) (q : Q) : Q :=
  ⟨Int.fdiv (2 * q.num * 10 ^ fix + q.den) (2 * q.den), (10 : Int) ^ fix⟩

/-- The four pipeline stages run in sequence, each error short-circuiting
the rest (`eval_math_expression`, `src/main.rs` lines 203-206). -/
def stages (l : List Char) (prev : Option Q) : Except CalcError Q :=
  match autobalanceParens l with
  | .error e => .error e
  | .ok bal =>
    match lexer bal prev with
    | .error e => .error e
    | .ok toks =>
      match toRPN toks with
      | .error e => .error e
      | .ok rpn => evalRPN rpn

/-- `eval_math_expression` from `src/main.rs` (lines 195-211), with the
configuration's `fix` made an explicit parameter: trim the input and
delete spaces, return the `Help` error on `"help"`, `0` on empty input,
and otherwise run the four stages and round the result to `fix` decimal
places. -/
def evalWithFix (fix : Nat) (inp : String) (prev_ans : Option Q) : Except CalcError Q :=
  let input := strip inp
  if input = "help".data then .error .Help
  else if input = [] then .ok ⟨0, 1⟩
  else (stages input prev_ans).map (fixRound fix)

/-- `eval_math_expression` at the default configuration `fix = 10` (the
value used by the repository's test configuration). -/
def eval_math_expression (inp : String) (prev_ans : Option Q) : Except CalcError Q :=
  evalWithFix 10 inp prev_ans

/-! Helper lemmas. -/

/-- Mapping `Q.toRat` over a known `ok` pipeline result. -/
theorem map_toRat_eq {x : Except CalcError Q} {q : Q} (h : x = .ok q) :
    x.map Q.toRat = .ok q.toRat := by
  rw [h]; rfl

/-- `balGo` on an input whose depth scan ends at `e` appends exactly `e`
closing parens. -/
theorem balGo_of_scan (l : List Char) : ∀ (d e : Nat), scan l d = some e →
    balGo l d = .ok (l ++ List.replicate e ')') := by
  induction l with
  | nil =>
    intro d e h
    simp only [scan, Option.some.injEq] at h
    subst h
    simp [balGo]
  | cons c r ih =>
    intro d e h
    simp only [scan] at h
    simp only [balGo]
    by_cases h1 : c = '('
    · simp only [if_pos h1] at h ⊢
      rw [ih _ _ h]
      rfl
    · simp only [if_neg h1] at h ⊢
      by_cases h2 : c = ')'
      · simp only [if_pos h2] at h ⊢
        cases d with
        | zero => simp at h
        | succ e2 =>
          have h2 : scan r e2 = some e := h
          show Except.map (fun x => c :: x) (balGo r e2) =
            Except.ok (c :: r ++ List.replicate e ')')
          rw [ih _ _ h2]
          rfl
      · simp only [if_neg h2] at h ⊢
        rw [ih _ _ h]
        rfl

/-- `balGo` on an input whose depth scan goes negative fails with the
mismatched-parentheses syntax error. -/
theorem balGo_of_scan_none (l : List Char) : ∀ (d : Nat), scan l d = none →
    balGo l d = .error (.Syntax "Mismatched parentheses!") := by
  induction l with
  | nil => intro d h; simp [scan] at h
  | cons c r ih =>
    intro d h
    simp only [scan] at h
    simp only [balGo]
    by_cases h1 : c = '('
    · simp only [if_pos h1] at h ⊢
      rw [ih _ h]
      rfl
    · simp only [if_neg h1] at h ⊢
      by_cases h2 : c = ')'
      · simp only [if_pos h2] at h ⊢
        cases d with
        | zero => rfl
        | succ e2 =>
          have h3 : scan r e2 = none := h
          show Except.map (fun x => c :: x) (balGo r e2) =
            Except.error (.Syntax "Mismatched parentheses!")
          rw [ih _ h3]
          rfl
      · simp only [if_neg h2] at h ⊢
        rw [ih _ h]
        rfl

/-- The depth scan distributes over append. -/
theorem scan_append (a b : List Char) : ∀ d,
    scan (a ++ b) d = (scan a d).bind (fun e => scan b e) := by
  induction a with
  | nil => intro d; simp [scan]
  | cons c r ih =>
    intro d
    simp only [List.cons_append, scan]
    by_cases h1 : c = '('
    · simp [h1, ih]
    · by_cases h2 : c = ')'
      · simp only [if_neg h1, if_pos h2]
        cases d with
        | zero => simp
        | succ e => simp [ih]
      · simp [h1, h2, ih]

/-- Scanning `d` closing parens from depth `d` ends balanced. -/
theorem scan_replicate_close : ∀ d, scan (List.replicate d ')') d = some 0 := by
  intro d
  induction d with
  | zero => simp [scan]
  | succ e ih => simpa [List.replicate_succ, scan] using ih

/-- Removing spaces commutes with dropping a leading whitespace run
(a space is itself whitespace). -/
theorem removeSp_dropWhile (l : List Char) :
    removeSp (l.dropWhile Char.isWhitespace) =
      (removeSp l).dropWhile Char.isWhitespace := by
  induction l with
  | nil => simp [removeSp]
  | cons c r ih =>
    by_cases hw : Char.isWhitespace c
    · by_cases hc : c = ' '
      · simp [removeSp, List.dropWhile_cons, List.filter_cons, hw, hc] at ih ⊢
        exact ih
      · simp [removeSp, List.dropWhile_cons, List.filter_cons, hw, hc] at ih ⊢
        exact ih
    · have hc : c ≠ ' ' := by
        intro he
        exact hw (by rw [he]; decide)
      simp [removeSp, List.dropWhile_cons, List.filter_cons, hw, hc]

/-- Removing spaces commutes with reversal. -/
theorem removeSp_reverse (l : List Char) :
    removeSp l.reverse = (removeSp l).reverse :=
  List.filter_reverse _ _

/-- Removing spaces commutes with dropping a trailing whitespace run. -/
theorem removeSp_dropTrail (l : List Char) :
    removeSp (dropTrail l) = dropTrail (removeSp l) := by
  unfold dropTrail
  rw [removeSp_reverse, removeSp_dropWhile, removeSp_reverse]

/-- The preprocessing `trim` + `replace(" ", "")` of `eval_math_expression`
equals removing all spaces first and trimming afterwards. -/
theorem strip_eq_trim_removeSp (s : String) :
    strip s = trimWS (removeSp s.data) := by
  unfold strip trimWS
  rw [removeSp_dropTrail, removeSp_dropWhile]

/-! Claim theorems. -/

/-- Claim C1 counterexample: evaluating `(1+1,2+2)` does not fail with a
Syntax error as the claim states; it fails with the evaluator's stack-arity
Parser error (matching the repository test `eval_unexpected_comma`). -/
theorem C1_counterexample :
    eval_math_expression "(1+1,2+2)" none =
      .error (.Parser "Too many operators, Too little operands") := by
  decide

/-- Claim C1, amended: the error kinds are the opposite of the claim's
assignment: evaluating `(1+1,2+2)` fails with the stack-arity Parser error
and evaluating `1+(2^16, 4)` fails with a Syntax error (comma whose
enclosing paren is not a function call's). -/
theorem C1_theorem :
    eval_math_expression "(1+1,2+2)" none =
      .error (.Parser "Too many operators, Too little operands")
    ∧ eval_math_expression "1+(2^16, 4)" none =
      .error (.Syntax "comma without matching function call") := by
  exact ⟨by decide, by decide⟩

/-- Claim C2: exponentiation is right-associative: `2 ** 2 ** 3` (with `**`
an alias for `^`) evaluates to `2 ^ (2 ^ 3) = 256`, not `64`. -/
theorem C2_theorem :
    (eval_math_expression "2 ** 2 ** 3" none).map Q.toRat = .ok (256 : ℚ)
    ∧ (eval_math_expression "2 ** 2 ** 3" none).map Q.toRat ≠ .ok (64 : ℚ) := by
  rw [map_toRat_eq (q := ⟨2560000000000, 10000000000⟩) (by decide)]
  constructor
  · norm_num [Q.toRat]
  · intro hh
    rw [Except.ok.injEq] at hh
    norm_num [Q.toRat] at hh

/-- Claim C4: `nroot(27, 3)` evaluates to `3`; `nroot(23)` fails with the
Parser error naming the supplied and required argument counts; and
`nroot(23,3,4)` fails with the stack-arity Parser error. -/
theorem C4_theorem :
    (eval_math_expression "nroot(27, 3)" none).map Q.toRat = .ok (3 : ℚ)
    ∧ eval_math_expression "nroot(23)" none =
      .error (.Parser "Too few arguments (1) for function nroot (requires 2)!")
    ∧ eval_math_expression "nroot(23,3,4)" none =
      .error (.Parser "Too many operators, Too little operands") := by
  refine ⟨?_, by decide, by decide⟩
  rw [map_toRat_eq (q := ⟨30000000000, 10000000000⟩) (by decide)]
  norm_num [Q.toRat]

/-- Claim C6: implicit multiplication between a constant and an adjacent
number: `e2` evaluates to the rounding of `e * 2`, whose value at the
default fix of 10 is exactly `5.4365636569`; and `e0` evaluates to `0`. -/
theorem C6_theorem :
    eval_math_expression "e2" none = .ok (fixRound 10 (Q.mul constE ⟨2, 1⟩))
    ∧ (eval_math_expression "e2" none).map Q.toRat = .ok (5.4365636569 : ℚ)
    ∧ (eval_math_expression "e0" none).map Q.toRat = .ok (0 : ℚ) := by
  refine ⟨by decide, ?_, ?_⟩
  · rw [map_toRat_eq (q := ⟨54365636569, 10000000000⟩) (by decide)]
    norm_num [Q.toRat]
  · rw [map_toRat_eq (q := ⟨0, 10000000000⟩) (by decide)]
    norm_num [Q.toRat]

/-- Claim C7: the previous-answer placeholder `_` is substituted with the
caller-supplied value: with `prev_ans = 9`, `_ + 9` evaluates to `18`; with
`prev_ans = 0`, `9 + _` evaluates to `9`; with no `prev_ans`, evaluation
fails with an error instead of returning a value. -/
theorem C7_theorem :
    (eval_math_expression "_ + 9" (some ⟨9, 1⟩)).map Q.toRat = .ok (18 : ℚ)
    ∧ (eval_math_expression "9 + _" (some ⟨0, 1⟩)).map Q.toRat = .ok (9 : ℚ)
    ∧ eval_math_expression "_ + 9" none =
      .error (.Lexer "no previous answer available") := by
  refine ⟨?_, ?_, by decide⟩
  · rw [map_toRat_eq (q := ⟨180000000000, 10000000000⟩) (by decide)]
    norm_num [Q.toRat]
  · rw [map_toRat_eq (q := ⟨90000000000, 10000000000⟩) (by decide)]
    norm_num [Q.toRat]

/-- Claim C3: the preprocessor's auto-balancing contract.  If the depth
scan of the stripped input ever goes negative, evaluation fails with the
Syntax error "Mismatched parentheses!".  If the scan ends at depth `d > 0`,
exactly `d` closing parens are appended and evaluation proceeds on the
completed string; in particular `sin(30) + tan(45` evaluates exactly as
`sin(30) + tan(45)` does. -/
theorem C3_theorem :
    (∀ (s : String) (prev : Option Q), scan (strip s) 0 = none →
      eval_math_expression s prev = .error (.Syntax "Mismatched parentheses!"))
    ∧ (∀ (s : String) (prev : Option Q) (d : Nat), scan (strip s) 0 = some d → 0 < d →
      autobalanceParens (strip s) = .ok (strip s ++ List.replicate d ')')
      ∧ eval_math_expression s prev =
          (stages (strip s ++ List.replicate d ')') prev).map (fixRound 10))
    ∧ eval_math_expression "sin(30) + tan(45" none =
        eval_math_expression "sin(30) + tan(45)" none := by
  refine ⟨?_, ?_, by decide⟩
  · intro s prev h
    have hh : strip s ≠ "help".data := by
      intro he
      rw [he] at h
      exact absurd h (by decide)
    have hemp : strip s ≠ [] := by
      intro he
      rw [he] at h
      exact absurd h (by decide)
    have hb : autobalanceParens (strip s) = .error (.Syntax "Mismatched parentheses!") :=
      balGo_of_scan_none _ _ h
    simp only [eval_math_expression, evalWithFix, if_neg hh, if_neg hemp, stages, hb]
    rfl
  · intro s prev d h hd
    have hb : autobalanceParens (strip s) = .ok (strip s ++ List.replicate d ')') :=
      balGo_of_scan _ _ _ h
    refine ⟨hb, ?_⟩
    have hh : strip s ≠ "help".data := by
      intro he
      rw [he] at h
      have h0 : scan "help".data 0 = some 0 := by decide
      rw [h0] at h
      have := Option.some.inj h
      omega
    have hemp : strip s ≠ [] := by
      intro he
      rw [he] at h
      have h0 : scan ([] : List Char) 0 = some 0 := by decide
      rw [h0] at h
      have := Option.some.inj h
      omega
    have h2 : scan (strip s ++ List.replicate d ')') 0 = some 0 := by
      rw [scan_append, h]
      exact scan_replicate_close d
    have hb2 : autobalanceParens (strip s ++ List.replicate d ')') =
        .ok (strip s ++ List.replicate d ')') := by
      have h3 := balGo_of_scan (strip s ++ List.replicate d ')') 0 0 h2
      simpa [autobalanceParens] using h3
    simp only [eval_math_expression, evalWithFix, if_neg hh, if_neg hemp, stages, hb, hb2]

/-- Claim C3 witness: the negative-depth case at the concrete input `")"`,
and the positive-depth case at the concrete input `"sin(30) + tan(45"`
with one paren appended. -/
theorem C3_witness :
    eval_math_expression ")" none = .error (.Syntax "Mismatched parentheses!")
    ∧ autobalanceParens (strip "sin(30) + tan(45") =
        .ok (strip "sin(30) + tan(45" ++ List.replicate 1 ')')
    ∧ eval_math_expression "sin(30) + tan(45" none =
        (stages (strip "sin(30) + tan(45" ++ List.replicate 1 ')') none).map (fixRound 10) :=
  ⟨C3_theorem.1 ")" none (by decide),
   (C3_theorem.2.1 "sin(30) + tan(45" none 1 (by decide) (by decide)).1,
   (C3_theorem.2.1 "sin(30) + tan(45" none 1 (by decide) (by decide)).2⟩

/-- Claim C5: every successful result of the pipeline is an integer
multiple of `10 ^ -fix` (the result is rounded to `fix` decimal places by
the format-and-reparse step); in particular with the default fix of 10,
`1.2816 + 1 + 1.2816/1.2` evaluates to exactly `3.3496`. -/
theorem C5_theorem :
    (∀ (fix : Nat) (input : String) (prev : Option Q) (r : Q),
      evalWithFix fix input prev = .ok r → ∃ z : ℤ, Q.toRat r = (z : ℚ) / 10 ^ fix)
    ∧ (eval_math_expression "1.2816 + 1 + 1.2816/1.2" (some ⟨0, 1⟩)).map Q.toRat =
        .ok (3.3496 : ℚ) := by
  constructor
  · intro fix input prev r h
    simp only [evalWithFix] at h
    split_ifs at h with h1 h2
    · have hr : (⟨0, 1⟩ : Q) = r := Except.ok.inj h
      exact ⟨0, by rw [← hr]; norm_num [Q.toRat]⟩
    · cases hs : stages (strip input) prev with
      | error e =>
        rw [hs] at h
        exact absurd h (by simp [Except.map])
      | ok v =>
        rw [hs] at h
        have hr : fixRound fix v = r := Except.ok.inj h
        refine ⟨(fixRound fix v).num, ?_⟩
        rw [← hr]
        show Q.toRat ⟨Int.fdiv (2 * v.num * 10 ^ fix + v.den) (2 * v.den), (10 : Int) ^ fix⟩ = _
        unfold Q.toRat
        push_cast
        rfl
  · rw [map_toRat_eq (q := ⟨33496000000, 10000000000⟩) (by decide)]
    norm_num [Q.toRat]

/-- Claim C5 witness: the rounding property instantiated on the concrete
run of `1.2816 + 1 + 1.2816/1.2` at fix 10. -/
theorem C5_witness :
    ∃ z : ℤ, Q.toRat ⟨33496000000, 10000000000⟩ = (z : ℚ) / 10 ^ 10 :=
  C5_theorem.1 10 "1.2816 + 1 + 1.2816/1.2" (some ⟨0, 1⟩) ⟨33496000000, 10000000000⟩
    (by decide)

/-- Claim C8: any input that equals "help" after trimming and space
removal short-circuits to the distinguished `Help` error before any
pipeline stage runs. -/
theorem C8_theorem : ∀ (input : String) (prev : Option Q),
    strip input = "help".data →
    eval_math_expression input prev = .error .Help := by
  intro input prev h
  simp only [eval_math_expression, evalWithFix, if_pos h]

/-- Claim C8 witness: the concrete input `" help "`. -/
theorem C8_witness :
    strip " help " = "help".data ∧ eval_math_expression " help " none = .error .Help :=
  ⟨by decide, C8_theorem " help " none (by decide)⟩

/-- Claim C9: any input that is empty after trimming and space removal
evaluates to `Ok(0)` without running any pipeline stage. -/
theorem C9_theorem : ∀ (input : String) (prev : Option Q),
    strip input = [] →
    eval_math_expression input prev = .ok ⟨0, 1⟩
    ∧ (eval_math_expression input prev).map Q.toRat = .ok (0 : ℚ) := by
  intro input prev h
  have h1 : strip input ≠ "help".data := by
    rw [h]
    decide
  have h2 : eval_math_expression input prev = .ok ⟨0, 1⟩ := by
    simp only [eval_math_expression, evalWithFix, if_neg h1, if_pos h]
  refine ⟨h2, ?_⟩
  rw [map_toRat_eq h2]
  norm_num [Q.toRat]

/-- Claim C9 witness: the concrete whitespace-only input `"   "`. -/
theorem C9_witness :
    strip "   " = [] ∧ eval_math_expression "   " none = .ok ⟨0, 1⟩ :=
  ⟨by decide, And.left <| C9_theorem "   " none (by decide)⟩

/-- Claim C10: spaces are deleted before any stage runs, so two inputs
that agree after deleting every space evaluate identically; in particular
`"h elp"` yields the Help error and `"1 2"` evaluates as the literal 12. -/
theorem C10_theorem :
    (∀ (s t : String) (prev : Option Q), removeSp s.data = removeSp t.data →
      eval_math_expression s prev = eval_math_expression t prev)
    ∧ eval_math_expression "h elp" none = .error .Help
    ∧ (eval_math_expression "1 2" none).map Q.toRat = .ok (12 : ℚ) := by
  refine ⟨?_, by decide, ?_⟩
  · intro s t prev h
    have hs : strip s = strip t := by
      rw [strip_eq_trim_removeSp, strip_eq_trim_removeSp, h]
    simp only [eval_math_expression, evalWithFix, hs]
  · rw [map_toRat_eq (q := ⟨120000000000, 10000000000⟩) (by decide)]
    norm_num [Q.toRat]

/-- Claim C10 witness: space-insensitivity instantiated at `"1 2"` versus
`"12"`. -/
theorem C10_witness :
    eval_math_expression "1 2" none = eval_math_expression "12" none :=
  C10_theorem.1 "1 2" "12" none (by decide)

end EvaSpec
